import Mathlib

/-!
Shallow embedding of the stickerverse/figmaplugin sources (src/src/ui.tsx)
and proofs about them.

The repository is a Figma plugin.  Its logic lives in two contexts:

* a UI panel (ingestion and validation of JSON payloads:
  `processClipboardText`, `handleJsonFileImport`, `analyzeImage`);
* a plugin controller (`processImageAnalysisResults`) that maps an
  `ImageAnalysisResult` into a tree of scene nodes, creating and reusing
  named paint and text styles.

Host-provided collaborators that are not part of this repository
(`ComponentBuilder.createSystemComponent`, `ComponentBuilder.createComponentSet`,
`JSON.parse`, the vision service, `figmaService.findSimilarComponents`) are
modelled as explicit oracle parameters: the repository code only observes
whether they return normally or throw, and (for `JSON.parse`) the parsed value.
JavaScript numbers are modelled as `Int`; none of the verified properties
depend on numeric range or rounding.  JavaScript truthiness (`x || d`,
`if (x)`) is modelled explicitly wherever the source relies on it.
-/

/-- An r/g/b triple, as carried by `ColorData.color` in ui.tsx. -/
structure RGB where
  r : Int
  g : Int
  b : Int
deriving DecidableEq, Repr

/-- A solid paint, as built at ui.tsx:960 (a SOLID paint with color and opacity). -/
structure Paint where
  color : RGB
  opacity : Int
deriving DecidableEq, Repr

/-- A font name, as in the Figma `FontName` type (`{family, style}`). -/
structure FontName where
  family : String
  style : String
deriving DecidableEq, Repr

/-- `ColorData` from ui.tsx (main context): name, rgb color, optional opacity. -/
structure ColorData where
  name : String
  color : RGB
  opacity : Option Int
deriving DecidableEq, Repr

/-- `TypographyData` from ui.tsx.  A missing `text` field of the underlying
JSON is modelled as the empty string, which is exactly what the JavaScript
falsiness test `sample.text || default` treats the same as `undefined`. -/
structure TypographyData where
  text : String
  fontName : Option FontName
  fontSize : Option Int
  x : Int
  y : Int
  width : Int
  height : Int
deriving DecidableEq, Repr

/-- `ComponentData` from ui.tsx.  A missing `name` is modelled as `""`
(JavaScript treats both as falsy in `compData.name || default`). -/
structure ComponentData where
  id : String
  type : String
  name : String
  x : Int
  y : Int
  width : Int
  height : Int
  fills : Option (List Paint)
deriving DecidableEq, Repr

/-- `ImageAnalysisResult` from ui.tsx. -/
structure ImageAnalysisResult where
  components : List ComponentData
  colors : List ColorData
  typography : List TypographyData
deriving DecidableEq, Repr

/-- Payload of a registered Figma style: either a paint style
(`figma.createPaintStyle`) or a text style (`figma.createTextStyle`). -/
inductive StylePayload where
  | paint (paints : List Paint)
  | text (fontName : FontName) (fontSize : Int)
deriving DecidableEq, Repr

/-- One registered Figma style: a fresh id, a name, and its payload. -/
structure FigmaStyle where
  id : Nat
  name : String
  payload : StylePayload
deriving DecidableEq, Repr

/-- The document-level style registry mutated by `processImageAnalysisResults`:
`figma.getStyleByName` searches `styles` by name, `figma.createPaintStyle` /
`figma.createTextStyle` append a style with the next fresh id. -/
structure FigmaState where
  styles : List FigmaStyle
  nextId : Nat
deriving Repr

/-- Scene nodes created by `processImageAnalysisResults`.  `builtComponent`
stands for the (external) result of `ComponentBuilder.createSystemComponent`
on the given data, `componentSet` for the result of
`ComponentBuilder.createComponentSet` on the given list. -/
inductive SceneNode where
  | frame (name : String) (children : List SceneNode)
  | text (fontName : Option FontName) (fontSize : Int) (characters : String)
      (textStyleId : Option Nat)
  | rectangle (name : String) (fill : Paint) (fillStyleId : Nat)
  | componentSet (comps : List ComponentData)
  | builtComponent (data : ComponentData)
  | component (name : String) (width : Int) (height : Int)
      (fills : Option (List Paint))

/-- Children of a node (empty for non-frames). -/
def SceneNode.children : SceneNode → List SceneNode
  | SceneNode.frame _ cs => cs
  | _ => []

/-- The name of a node, where the source assigns one. -/
def SceneNode.nodeName : SceneNode → Option String
  | SceneNode.frame n _ => some n
  | SceneNode.rectangle n _ _ => some n
  | SceneNode.component n _ _ _ => some n
  | _ => none

/-- The section titles of ui.tsx: a text node in Inter Bold at 16px
(ui.tsx:925-929, 1016-1020, 1084-1088). -/
def titleNode (characters : String) : SceneNode :=
  SceneNode.text (some { family := "Inter", style := "Bold" }) 16 characters none

/-- Whether a node is one of the bold 16px section titles. -/
def isBoldTitle : SceneNode → Bool
  | SceneNode.text (some fn) sz _ _ =>
      fn.family == "Inter" && fn.style == "Bold" && sz == 16
  | _ => false

/-- Whether a frame starts with a bold title text node. -/
def startsWithBoldTitle (n : SceneNode) : Bool :=
  match n.children with
  | t :: _ => isBoldTitle t
  | [] => false

/-- The paint built for a color at ui.tsx:960-964:
a SOLID paint whose color is colorData.color and whose opacity is
`colorData.opacity || 1`.
JavaScript `||` replaces both a missing and a zero opacity by 1. -/
def mkPaint (c : ColorData) : Paint :=
  { color := c.color,
    opacity := match c.opacity with
      | some o => if o = 0 then 1 else o
      | none => 1 }

/-- `figma.getStyleByName` followed by conditional style creation
(ui.tsx:967-975 for paints, ui.tsx:1043-1053 for text styles): look the
name up in the registry; if absent, append a new style carrying the given
payload under a fresh id.  Returns the new registry and the id the caller
links to (`rect.fillStyleId` / `text.textStyleId`). -/
def lookupOrCreate (st : FigmaState) (n : String) (p : StylePayload) :
    FigmaState × Nat :=
  match st.styles.find? (fun s => s.name == n) with
  | some s => (st, s.id)
  | none =>
      ({ styles := st.styles ++ [{ id := st.nextId, name := n, payload := p }],
         nextId := st.nextId + 1 }, st.nextId)

/-- The per-color wrapper frame of ui.tsx:946-994: a vertical frame named
`Color-<name>-Wrapper` holding the swatch rectangle (linked to the paint
style) and a label text node (11px, default font). -/
def colorWrapper (c : ColorData) (paint : Paint) (sid : Nat) : SceneNode :=
  SceneNode.frame ("Color-" ++ c.name ++ "-Wrapper")
    [SceneNode.rectangle c.name paint sid,
     SceneNode.text none 11 c.name none]

/-- One iteration of the color loop (ui.tsx:944-995): build the paint,
look up or create the style named `Color/<name>`, and emit the wrapper. -/
def processColor (st : FigmaState) (c : ColorData) : FigmaState × SceneNode :=
  let r := lookupOrCreate st ("Color/" ++ c.name) (StylePayload.paint [mkPaint c])
  (r.1, colorWrapper c (mkPaint c) r.2)

/-- The color loop of ui.tsx:944-995 over the whole color list. -/
def processColors : FigmaState → List ColorData → FigmaState × List SceneNode
  | st, [] => (st, [])
  | st, c :: rest =>
      let pr := processColor st c
      let pr2 := processColors pr.1 rest
      (pr2.1, pr.2 :: pr2.2)

/-- The grouping key of ui.tsx:1028:
the template string joining `fontSize || unknown` and the optional
`fontName.family || unknown` with a dash.
JavaScript `||` maps a missing or zero `fontSize` and a missing or empty
`family` to the literal string `"unknown"`. -/
def typoKey (t : TypographyData) : String :=
  (match t.fontSize with
    | some n => if n = 0 then "unknown" else toString n
    | none => "unknown")
  ++ "-" ++
  (match t.fontName with
    | some fn => if fn.family = "" then "unknown" else fn.family
    | none => "unknown")

/-- Keys in order of first occurrence, as produced by insertion into a
JavaScript object (ui.tsx:1024-1033): emit a key the first time it is seen. -/
def firstOccAux : List String → List String → List String
  | _, [] => []
  | seen, k :: ks =>
      if k ∈ seen then firstOccAux seen ks
      else k :: firstOccAux (k :: seen) ks

/-- Keys of a list with duplicates removed, keeping first occurrences. -/
def firstOccKeys (l : List String) : List String :=
  firstOccAux [] l

/-- The groups of ui.tsx:1024-1033 (`textGroups`), in key insertion order;
each group lists the typography entries with that key, in input order. -/
def typoGroups (ts : List TypographyData) : List (List TypographyData) :=
  (firstOccKeys (ts.map typoKey)).map
    (fun k => ts.filter (fun t => typoKey t == k))

/-- `sample.fontSize || 16` (ui.tsx:1039): missing or zero becomes 16. -/
def sampleFontSize (t : TypographyData) : Int :=
  match t.fontSize with
  | some n => if n = 0 then 16 else n
  | none => 16

/-- `sample.fontName || { family: "Inter", style: "Regular" }` (ui.tsx:1040);
an object is always truthy, so only a missing font name is defaulted. -/
def sampleFontName (t : TypographyData) : FontName :=
  t.fontName.getD { family := "Inter", style := "Regular" }

/-- The text-style name of ui.tsx:1043:
`` `Text/${fontName.family}-${fontName.style}/${fontSize}px` ``. -/
def textStyleName (fn : FontName) (size : Int) : String :=
  "Text/" ++ fn.family ++ "-" ++ fn.style ++ "/" ++ toString size ++ "px"

/-- `sample.text || `${fontName.family} ${fontSize}px`` (ui.tsx:1060):
an empty (or missing) text falls back to the descriptive default. -/
def sampleChars (t : TypographyData) : String :=
  if t.text = "" then
    (sampleFontName t).family ++ " " ++ toString (sampleFontSize t) ++ "px"
  else t.text

/-- The per-group body of ui.tsx:1036-1066: guard on a non-empty group,
take its first element as the sample, look up or create the text style,
and emit one sample text node linked to it. -/
def processGroup (st : FigmaState) (g : List TypographyData) :
    FigmaState × List SceneNode :=
  match g with
  | [] => (st, [])
  | sample :: _ =>
      let size := sampleFontSize sample
      let fn := sampleFontName sample
      let r := lookupOrCreate st (textStyleName fn size)
        (StylePayload.text fn size)
      (r.1, [SceneNode.text (some fn) size (sampleChars sample) (some r.2)])

/-- The loop over `textGroups` of ui.tsx:1036-1066. -/
def processGroups : FigmaState → List (List TypographyData) →
    FigmaState × List SceneNode
  | st, [] => (st, [])
  | st, g :: gs =>
      let pr := processGroup st g
      let pr2 := processGroups pr.1 gs
      (pr2.1, pr.2 ++ pr2.2)

/-- The typography body of ui.tsx:1024-1066: group, then iterate the groups. -/
def processTypographyAll (st : FigmaState) (ts : List TypographyData) :
    FigmaState × List SceneNode :=
  processGroups st (typoGroups ts)

/-- One element of the independent build path (ui.tsx:1110-1131): try the
external `ComponentBuilder.createSystemComponent` (whose success is the
oracle `buildOk`); on failure substitute the fallback component of
ui.tsx:1119-1129, carrying the size, the name (or `Component <i+1>` when
the name is JavaScript-falsy, i.e. missing or empty) and the fills when
present. -/
def buildOne (buildOk : Nat → ComponentData → Bool) (i : Nat)
    (c : ComponentData) : SceneNode :=
  if buildOk i c then SceneNode.builtComponent c
  else
    SceneNode.component
      (if c.name = "" then "Component " ++ toString (i + 1) else c.name)
      c.width c.height c.fills

/-- The independent loop of ui.tsx:1110-1131, starting at index `i`. -/
def buildIndependents (buildOk : Nat → ComponentData → Bool) :
    Nat → List ComponentData → List SceneNode
  | _, [] => []
  | i, c :: rest => buildOne buildOk i c :: buildIndependents buildOk (i + 1) rest

/-- The variant heuristic of ui.tsx:1092-1093:
`components.length > 1 && components[0].name === components[1].name`. -/
def variantCond : List ComponentData → Bool
  | c0 :: c1 :: _ => c0.name == c1.name
  | _ => false

/-- The component nodes appended after the section title
(ui.tsx:1091-1132): when the variant heuristic fires, delegate the whole
list to the external `ComponentBuilder.createComponentSet` (whose success
is the oracle `setOk`); if that throws, or if the heuristic does not fire,
run the independent per-element loop. -/
def componentNodes (setOk : List ComponentData → Bool)
    (buildOk : Nat → ComponentData → Bool)
    (comps : List ComponentData) : List SceneNode :=
  if variantCond comps then
    if setOk comps then [SceneNode.componentSet comps]
    else buildIndependents buildOk 0 comps
  else buildIndependents buildOk 0 comps

/-- `processImageAnalysisResults` (ui.tsx:895-1146).  The two oracles stand
for the external `ComponentBuilder`; the state is the style registry.
Returns the final registry and the parent frame
(`Sticker Component Analysis`), whose children are the optional sections
in the fixed order palette, typography, components. -/
def processImageAnalysisResults (setOk : List ComponentData → Bool)
    (buildOk : Nat → ComponentData → Bool)
    (st : FigmaState) (d : ImageAnalysisResult) : FigmaState × SceneNode :=
  let pc :=
    if d.colors.isEmpty then (st, ([] : List SceneNode))
    else
      let r := processColors st d.colors
      (r.1, [SceneNode.frame "Color Palette"
        [titleNode "Color Styles", SceneNode.frame "Colors" r.2]])
  let pt :=
    if d.typography.isEmpty then (pc.1, ([] : List SceneNode))
    else
      let r := processTypographyAll pc.1 d.typography
      (r.1, [SceneNode.frame "Typography" (titleNode "Text Styles" :: r.2)])
  let ks :=
    if d.components.isEmpty then ([] : List SceneNode)
    else
      [SceneNode.frame "Components"
        (titleNode "UI Components" :: componentNodes setOk buildOk d.components)]
  (pt.1, SceneNode.frame "Sticker Component Analysis" (pc.2 ++ pt.2 ++ ks))

/-! ## The UI context: JSON payloads, validation, and the analyzeImage remap -/

/-- A parsed JSON value, as handed back by the host `JSON.parse`. -/
inductive Json where
  | null
  | bool (b : Bool)
  | num (n : Int)
  | str (s : String)
  | arr (elems : List Json)
  | obj (fields : List (String × Json))

/-- JavaScript truthiness of a JSON value (`NaN` is not representable in
a parsed JSON document, so the falsy values are exactly these). -/
def Json.truthy : Json → Bool
  | Json.null => false
  | Json.bool b => b
  | Json.num n => n != 0
  | Json.str s => s != ""
  | Json.arr _ => true
  | Json.obj _ => true

/-- Property read on a value that is known not to be null/undefined:
returns the field of an object, and `undefined` (here `none`) on any
other base value.  Used for the guarded accesses of the validators. -/
def jsProp (j : Json) (k : String) : Option Json :=
  match j with
  | Json.obj fs => (fs.find? (fun p => p.1 == k)).map (fun p => p.2)
  | _ => none

/-- Truthiness of `j.k`, with a missing property falsy. -/
def jsTruthyProp (j : Json) (k : String) : Bool :=
  match jsProp j k with
  | some v => v.truthy
  | none => false

/-- `j.k` defaulted to `null` when absent; only ever used at points where
the source has already established that `j.k` is truthy. -/
def jsPropD (j : Json) (k : String) : Json :=
  (jsProp j k).getD Json.null

/-- JavaScript template-literal stringification, for the
`data:image/jpeg;base64,<...>` preview strings. -/
def jsTemplate : Json → String
  | Json.null => "null"
  | Json.bool b => if b then "true" else "false"
  | Json.num n => toString n
  | Json.str s => s
  | Json.arr _ => ""
  | Json.obj _ => "[object Object]"

/-- The validation of ui.tsx:257-262:
`clipboardData && clipboardData.version && clipboardData.imageAnalysis &&
 (imageAnalysis.colors || imageAnalysis.typography || imageAnalysis.components)`. -/
def clipboardValid (j : Json) : Bool :=
  j.truthy && jsTruthyProp j "version" && jsTruthyProp j "imageAnalysis" &&
    (jsTruthyProp (jsPropD j "imageAnalysis") "colors" ||
     jsTruthyProp (jsPropD j "imageAnalysis") "typography" ||
     jsTruthyProp (jsPropD j "imageAnalysis") "components")

/-- The validation of ui.tsx:109: `jsonData.version && jsonData.imageAnalysis`. -/
def jsonFileValid (j : Json) : Bool :=
  jsTruthyProp j "version" && jsTruthyProp j "imageAnalysis"

/-- The import method of the UI panel state. -/
inductive ImportMethod where
  | image
  | json
deriving DecidableEq

/-- The relevant React state of the `Plugin` component in ui.tsx. -/
structure UIState where
  error : Option String
  statusMessage : String
  importedJsonData : Option Json
  importMethod : ImportMethod
  imagePreview : Option String
  isProcessing : Bool
  imageFile : Option Unit

/-- The preview update shared by the ingestion paths (ui.tsx:115-117,
270-272): when `imageAnalysis.originalImage` is truthy, set the preview. -/
def previewFrom (j : Json) (old : Option String) : Option String :=
  if jsTruthyProp (jsPropD j "imageAnalysis") "originalImage" then
    some ("data:image/jpeg;base64," ++
      jsTemplate (jsPropD (jsPropD j "imageAnalysis") "originalImage"))
  else old

/-- `processClipboardText` (ui.tsx:246-282).  The host `JSON.parse` is the
`parsed` oracle (`none` when parsing the given text throws). -/
def processClipboardText (text : String) (parsed : Option Json)
    (st : UIState) : UIState :=
  if text.trim = "" then
    { st with error := some "No data found in clipboard" }
  else
    match parsed with
    | none =>
        { st with error := some "No valid component data found in clipboard" }
    | some j =>
        if clipboardValid j then
          { st with
              statusMessage :=
                "Component data detected! Click \"Create Components\" to proceed.",
              importedJsonData := some j,
              importMethod := ImportMethod.json,
              error := some "",
              imagePreview := previewFrom j st.imagePreview }
        else
          { st with error := some "The clipboard data is not in the expected format" }

/-- `handleJsonFileImport` (ui.tsx:100-133), after the file has been read.
The host `JSON.parse` is the `parsed` oracle; its error message is carried
in the `Except.error` case. -/
def handleJsonFileImport (parsed : Except String Json) (st : UIState) : UIState :=
  match parsed with
  | Except.error msg =>
      { st with error := some ("Error parsing JSON: " ++ msg) }
  | Except.ok j =>
      if jsonFileValid j then
        { st with
            importedJsonData := some j,
            importMethod := ImportMethod.json,
            statusMessage :=
              "JSON data loaded successfully. Click \"Create Components\" to proceed.",
            imagePreview := previewFrom j st.imagePreview }
      else
        { st with error := some "Invalid JSON format. Missing required data structure." }

/-! ### The remap of analyzeImage (ui.tsx:394-422), with JavaScript
property-access and `.map` semantics: reading a property of `undefined` or
`null` throws, and `.map` throws unless the receiver is an array. -/

/-- A JavaScript value: `none` is `undefined`, `some j` a JSON value. -/
abbrev JsVal := Option Json

/-- Property read on a JSON value: throws on `null`, returns the field of
an object, `undefined` on other bases. -/
def jsGetProp (c : Json) (k : String) : Except String JsVal :=
  match c with
  | Json.null => Except.error "TypeError: cannot read properties of null"
  | Json.obj fs => Except.ok ((fs.find? (fun p => p.1 == k)).map (fun p => p.2))
  | _ => Except.ok none

/-- Property read on a JavaScript value: additionally throws on `undefined`. -/
def jsAccessV (v : JsVal) (k : String) : Except String JsVal :=
  match v with
  | none => Except.error "TypeError: cannot read properties of undefined"
  | some j => jsGetProp j k

/-- Element-wise exceptional map, stopping at the first thrown error:
the body of a JavaScript `Array.prototype.map` whose callback may throw. -/
def exceptMapList {β : Type} (f : Json → Except String β) :
    List Json → Except String (List β)
  | [] => Except.ok []
  | x :: rest =>
      match f x with
      | Except.error e => Except.error e
      | Except.ok b =>
          match exceptMapList f rest with
          | Except.error e => Except.error e
          | Except.ok bs => Except.ok (b :: bs)

/-- Indexed element-wise exceptional map, for callbacks using the index. -/
def exceptMapListIdx {β : Type} (f : Nat → Json → Except String β) :
    Nat → List Json → Except String (List β)
  | _, [] => Except.ok []
  | i, x :: rest =>
      match f i x with
      | Except.error e => Except.error e
      | Except.ok b =>
          match exceptMapListIdx f (i + 1) rest with
          | Except.error e => Except.error e
          | Except.ok bs => Except.ok (b :: bs)

/-- `v.map(f)`: maps over an array element-wise, throws a TypeError on
every non-array receiver. -/
def jsMapArr {β : Type} (v : JsVal) (f : Json → Except String β) :
    Except String (List β) :=
  match v with
  | some (Json.arr xs) => exceptMapList f xs
  | _ => Except.error "TypeError: map is not a function"

/-- Indexed variant of `jsMapArr`, for the components remap (the index
feeds the generated fallback id). -/
def jsMapArrIdx {β : Type} (v : JsVal) (f : Nat → Json → Except String β) :
    Except String (List β) :=
  match v with
  | some (Json.arr xs) => exceptMapListIdx f 0 xs
  | _ => Except.error "TypeError: map is not a function"

/-- The color object built at ui.tsx:400-404. -/
structure MColor where
  name : JsVal
  r : JsVal
  g : JsVal
  b : JsVal
  opacity : Json

/-- The typography object built at ui.tsx:405-412. -/
structure MTypo where
  text : JsVal
  fontSize : JsVal
  x : JsVal
  y : JsVal
  width : JsVal
  height : JsVal

/-- The component object built at ui.tsx:413-421. -/
structure MComp where
  id : Json
  name : JsVal
  type : Json
  x : JsVal
  y : JsVal
  width : JsVal
  height : JsVal

/-- The remapped analysis result of the JSON import path. -/
structure MAnalysis where
  colors : List MColor
  typography : List MTypo
  components : List MComp

/-- ui.tsx:400-404: one color element. -/
def remapColor (c : Json) : Except String MColor := do
  let nm ← jsGetProp c "name"
  let r ← jsGetProp c "r"
  let g ← jsGetProp c "g"
  let b ← jsGetProp c "b"
  let op ← jsGetProp c "opacity"
  pure { name := nm, r := r, g := g, b := b,
         opacity := match op with
           | some v => if v.truthy then v else Json.num 1
           | none => Json.num 1 }

/-- ui.tsx:405-412: one typography element. -/
def remapTypo (t : Json) : Except String MTypo := do
  let tx ← jsGetProp t "text"
  let fs ← jsGetProp t "fontSize"
  let x ← jsGetProp t "x"
  let y ← jsGetProp t "y"
  let w ← jsGetProp t "width"
  let h ← jsGetProp t "height"
  pure { text := tx, fontSize := fs, x := x, y := y, width := w, height := h }

/-- ui.tsx:413-421: one component element; `genId i` stands for the host
`` `comp-${Math.random().toString(36).substr(2, 9)}` `` fallback id. -/
def remapComp (genId : Nat → String) (i : Nat) (c : Json) :
    Except String MComp := do
  let idv ← jsGetProp c "id"
  let nm ← jsGetProp c "name"
  let ty ← jsGetProp c "type"
  let x ← jsGetProp c "x"
  let y ← jsGetProp c "y"
  let w ← jsGetProp c "width"
  let h ← jsGetProp c "height"
  pure { id := match idv with
           | some v => if v.truthy then v else Json.str (genId i)
           | none => Json.str (genId i),
         name := nm,
         type := match ty with
           | some v => if v.truthy then v else Json.str "RECTANGLE"
           | none => Json.str "RECTANGLE",
         x := x, y := y, width := w, height := h }

/-- The remap of ui.tsx:396-422: read `importedJsonData.imageAnalysis`,
then map `colors`, `typography` and `components` in order, with any
JavaScript TypeError propagating as an exception. -/
def remapAnalysis (genId : Nat → String) (importedJsonData : Json) :
    Except String MAnalysis := do
  let ia ← jsAccessV (some importedJsonData) "imageAnalysis"
  let colorsV ← jsAccessV ia "colors"
  let colors ← jsMapArr colorsV remapColor
  let typoV ← jsAccessV ia "typography"
  let typography ← jsMapArr typoV remapTypo
  let compsV ← jsAccessV ia "components"
  let components ← jsMapArrIdx compsV (remapComp genId)
  pure { colors := colors, typography := typography, components := components }

/-- Whether an exceptional computation returned normally. -/
def exceptOk {α : Type} : Except String α → Bool
  | Except.ok _ => true
  | Except.error _ => false

/-- The event emitted to the plugin main context. -/
inductive UIEvent where
  | imageAnalysisComplete (r : MAnalysis)

/-- `analyzeImage` (ui.tsx:370-445).  The vision service (image path) and
the optional enrichment call `figmaService.findSimilarComponents` are
oracles; the latter only throws or returns, its value being discarded by
the source (it is only logged).  Returns the updated panel state and the
events emitted to the plugin main context. -/
def analyzeImage (visionResult : Except String MAnalysis)
    (genId : Nat → String)
    (enrich : MAnalysis → Except String Unit)
    (st : UIState) : UIState × List UIEvent :=
  if st.importMethod = ImportMethod.image ∧ st.imageFile = none then
    ({ st with error := some "Please select an image first." }, [])
  else if st.importMethod = ImportMethod.json ∧ st.importedJsonData.isNone = true then
    ({ st with error := some "Please import a JSON file first." }, [])
  else
    let st1 := { st with isProcessing := true, error := none }
    let res : Except String MAnalysis :=
      match st.importMethod with
      | ImportMethod.image => visionResult
      | ImportMethod.json =>
          remapAnalysis genId (st.importedJsonData.getD Json.null)
    match res with
    | Except.error e =>
        ({ st1 with
            error := some ("Error analyzing image: " ++ e),
            isProcessing := false }, [])
    | Except.ok r =>
        let st2 := { st1 with
          statusMessage := "Image analyzed successfully!",
          isProcessing := false }
        match enrich r with
        | Except.ok _ => (st2, [UIEvent.imageAnalysisComplete r])
        | Except.error _ => (st2, [UIEvent.imageAnalysisComplete r])

/-! ### The plugin main context (ui.tsx:776-817) -/

/-- Observable host actions of the plugin main context. -/
inductive MainAction where
  | setSelection
  | postToUI (msgType : String)
  | closePluginNow
  | scheduleClosePlugin (delayMs : Nat)
deriving DecidableEq

/-- The `IMAGE_ANALYSIS_COMPLETE` handler (ui.tsx:794-811): on success,
select the frame and post `CREATION_COMPLETE`; on a thrown error, post
`CREATION_ERROR`; in both cases the `finally` block schedules
`figma.closePlugin()` after a fixed 2000 ms delay. -/
def onImageAnalysisComplete (buildOutcome : Except String Unit) :
    List MainAction :=
  (match buildOutcome with
    | Except.ok _ => [MainAction.setSelection, MainAction.postToUI "CREATION_COMPLETE"]
    | Except.error _ => [MainAction.postToUI "CREATION_ERROR"]) ++
  [MainAction.scheduleClosePlugin 2000]

/-- The `CLOSE_PLUGIN` handler (ui.tsx:814-816): `figma.closePlugin()`
is called synchronously, with no delay. -/
def onClosePlugin : List MainAction :=
  [MainAction.closePluginNow]

/-- Whether an action is a delayed teardown. -/
def MainAction.isDelayedTeardown : MainAction → Bool
  | MainAction.scheduleClosePlugin _ => true
  | _ => false

/-- Whether an action tears the plugin down (now or later). -/
def MainAction.isTeardown : MainAction → Bool
  | MainAction.closePluginNow => true
  | MainAction.scheduleClosePlugin _ => true
  | _ => false

/-- Grouping key the specification describes for C8: the literal pair
(fontSize, font family).  Kept separate from `typoKey`, which is the
string key the source actually computes, so the two can be compared. -/
def specPairKey (t : TypographyData) : Option Int × Option String :=
  (t.fontSize, t.fontName.map (fun fn => fn.family))

/-! ## Helper lemmas -/

theorem find?_append_of_some {α : Type} {p : α → Bool} {l₁ : List α}
    (l₂ : List α) {a : α} (h : l₁.find? p = some a) :
    (l₁ ++ l₂).find? p = some a := by
  rw [List.find?_append, h]; rfl

theorem find?_append_of_none {α : Type} {p : α → Bool} {l₁ : List α}
    (l₂ : List α) (h : l₁.find? p = none) :
    (l₁ ++ l₂).find? p = l₂.find? p := by
  rw [List.find?_append, h]; rfl

theorem typoGroups_nil : typoGroups [] = [] := rfl

theorem typoGroups_cons_ne_nil (t : TypographyData) (ts : List TypographyData) :
    typoGroups (t :: ts) ≠ [] := by
  simp [typoGroups, firstOccKeys, firstOccAux]

/-- C1: for every ImageAnalysisResult, the parent frame contains a
`Color Palette` child iff there are colors, a `Typography` child iff there
is at least one typography group, and a `Components` child iff there are
components, appended in exactly that order, and every present section
starts with a bold title text node. -/
theorem claim1_sections_order (setOk : List ComponentData → Bool)
    (buildOk : Nat → ComponentData → Bool) (st : FigmaState)
    (d : ImageAnalysisResult) :
    ((processImageAnalysisResults setOk buildOk st d).2).children.map
        SceneNode.nodeName =
      ((if d.colors = [] then [] else [some "Color Palette"]) ++
       (if typoGroups d.typography = [] then [] else [some "Typography"]) ++
       (if d.components = [] then [] else [some "Components"])) ∧
    (∀ c ∈ ((processImageAnalysisResults setOk buildOk st d).2).children,
      startsWithBoldTitle c = true) := by
  obtain ⟨comps, colors, typo⟩ := d
  cases colors <;> cases typo <;> cases comps <;>
    refine ⟨?_, ?_⟩ <;>
    simp [processImageAnalysisResults, SceneNode.children, SceneNode.nodeName,
      typoGroups, firstOccKeys, firstOccAux, startsWithBoldTitle, isBoldTitle,
      titleNode]

theorem buildIndependents_length (buildOk : Nat → ComponentData → Bool)
    (k : Nat) (cs : List ComponentData) :
    (buildIndependents buildOk k cs).length = cs.length := by
  induction cs generalizing k with
  | nil => rfl
  | cons c rest ih => simp [buildIndependents, ih]

theorem buildIndependents_get? (buildOk : Nat → ComponentData → Bool)
    (k i : Nat) (cs : List ComponentData) :
    (buildIndependents buildOk k cs).get? i =
      (cs.get? i).map (fun c => buildOne buildOk (k + i) c) := by
  induction cs generalizing k i with
  | nil => simp [buildIndependents]
  | cons c rest ih =>
      cases i with
      | zero => simp [buildIndependents]
      | succ j =>
          simp only [buildIndependents, List.get?_cons_succ, ih,
            Nat.add_succ, Nat.succ_add]

/-- The components section, when components are present, is the last child
of the parent frame and holds the title followed by `componentNodes`. -/
theorem components_section_children (setOk : List ComponentData → Bool)
    (buildOk : Nat → ComponentData → Bool) (st : FigmaState)
    (d : ImageAnalysisResult) (h : d.components ≠ []) :
    ∃ pre, ((processImageAnalysisResults setOk buildOk st d).2).children =
      pre ++ [SceneNode.frame "Components"
        (titleNode "UI Components" :: componentNodes setOk buildOk d.components)] := by
  have hne : d.components.isEmpty = false := by
    cases hc : d.components with
    | nil => exact absurd hc h
    | cons a l => rfl
  refine ⟨(if d.colors.isEmpty then ([] : List SceneNode)
      else [SceneNode.frame "Color Palette"
        [titleNode "Color Styles",
         SceneNode.frame "Colors" (processColors st d.colors).2]]) ++
    (if d.typography.isEmpty then ([] : List SceneNode)
      else [SceneNode.frame "Typography"
        (titleNode "Text Styles" ::
          (processTypographyAll
            (if d.colors.isEmpty then st else (processColors st d.colors).1)
            d.typography).2)]), ?_⟩
  simp only [processImageAnalysisResults, hne, Bool.false_eq_true, if_false,
    SceneNode.children]
  by_cases hc : d.colors.isEmpty <;> by_cases ht : d.typography.isEmpty <;>
    simp [hc, ht, List.append_assoc]

/-- C2: with the variant path not taken, every element for which the
external builder fails is replaced by the fallback node (size, name or
`Component <i+1>`, fills), the loop continues, and the components section
receives exactly one node per input component after its title. -/
theorem claim2_independent_fallback (setOk : List ComponentData → Bool)
    (buildOk : Nat → ComponentData → Bool) (st : FigmaState)
    (d : ImageAnalysisResult) (h1 : d.components ≠ [])
    (h2 : variantCond d.components = false) :
    (∃ pre, ((processImageAnalysisResults setOk buildOk st d).2).children =
      pre ++ [SceneNode.frame "Components"
        (titleNode "UI Components" :: buildIndependents buildOk 0 d.components)]) ∧
    (buildIndependents buildOk 0 d.components).length = d.components.length ∧
    (∀ i c, d.components.get? i = some c →
      (buildIndependents buildOk 0 d.components).get? i =
        some (if buildOk i c then SceneNode.builtComponent c
          else SceneNode.component
            (if c.name = "" then "Component " ++ toString (i + 1) else c.name)
            c.width c.height c.fills)) := by
  refine ⟨?_, buildIndependents_length buildOk 0 d.components, ?_⟩
  · have hsec := components_section_children setOk buildOk st d h1
    simpa [componentNodes, h2] using hsec
  · intro i c hc
    rw [buildIndependents_get?, hc]
    simp [buildOne]

/-- Concrete five-component batch for C2. -/
def comps5 : List ComponentData :=
  [{ id := "1", type := "RECTANGLE", name := "Alpha", x := 0, y := 0,
     width := 10, height := 10, fills := none },
   { id := "2", type := "RECTANGLE", name := "Beta", x := 0, y := 0,
     width := 20, height := 20, fills := none },
   { id := "3", type := "RECTANGLE", name := "Gamma", x := 0, y := 0,
     width := 30, height := 40, fills := none },
   { id := "4", type := "RECTANGLE", name := "Delta", x := 0, y := 0,
     width := 40, height := 40, fills := none },
   { id := "5", type := "RECTANGLE", name := "Epsilon", x := 0, y := 0,
     width := 50, height := 50, fills := none }]

/-- Analysis input holding only the five components. -/
def d5 : ImageAnalysisResult :=
  { components := comps5, colors := [], typography := [] }

/-- Builder oracle failing exactly on the third component. -/
def buildOkW : Nat → ComponentData → Bool := fun i _ => !(i == 2)

/-- The empty style registry. -/
def stEmpty : FigmaState := { styles := [], nextId := 0 }

/-- C2 witness: on the concrete 5-element batch with one failure the
independent path yields exactly 5 nodes. -/
theorem claim2_witness :
    d5.components ≠ [] ∧ variantCond d5.components = false ∧
    (buildIndependents buildOkW 0 d5.components).length = 5 := by
  refine ⟨by decide, by decide, ?_⟩
  have h := claim2_independent_fallback (fun _ => true) buildOkW stEmpty d5
    (by decide) (by decide)
  exact h.2.1

/-- C3: the variant path is taken iff there are at least two components
and the first two share a name; when taken, the whole list goes to the
variant-set builder, and on the builder declining or the heuristic not
firing each component is built independently. -/
theorem claim3_variant_heuristic (setOk : List ComponentData → Bool)
    (buildOk : Nat → ComponentData → Bool) (comps : List ComponentData) :
    (variantCond comps = true ↔
      ∃ c0 c1 rest, comps = c0 :: c1 :: rest ∧ c0.name = c1.name) ∧
    (variantCond comps = true →
      componentNodes setOk buildOk comps =
        if setOk comps then [SceneNode.componentSet comps]
        else buildIndependents buildOk 0 comps) ∧
    (variantCond comps = false →
      componentNodes setOk buildOk comps = buildIndependents buildOk 0 comps) := by
  refine ⟨?_, ?_, ?_⟩
  · match comps with
    | [] => simp [variantCond]
    | [c] => simp [variantCond]
    | c0 :: c1 :: rest =>
        simp only [variantCond, beq_iff_eq]
        constructor
        · intro h; exact ⟨c0, c1, rest, rfl, h⟩
        · rintro ⟨d0, d1, r, heq, hn⟩
          obtain ⟨rfl, rfl, rfl⟩ :
              c0 = d0 ∧ c1 = d1 ∧ rest = r := by
            injection heq with h0 htail
            injection htail with h1 h2
            exact ⟨h0, h1, h2⟩
          exact hn
  · intro h; simp [componentNodes, h]
  · intro h; simp [componentNodes, h]

/-- The spec example list `[{name:"Btn"},{name:"Btn"},{name:"Card"}]`. -/
def btnComps : List ComponentData :=
  [{ id := "1", type := "RECTANGLE", name := "Btn", x := 0, y := 0,
     width := 10, height := 10, fills := none },
   { id := "2", type := "RECTANGLE", name := "Btn", x := 0, y := 0,
     width := 10, height := 10, fills := none },
   { id := "3", type := "RECTANGLE", name := "Card", x := 0, y := 0,
     width := 10, height := 10, fills := none }]

/-- C3 witness: on `[Btn, Btn, Card]` the variant path fires and the whole
three-element list is delegated to the variant-set builder. -/
theorem claim3_witness :
    variantCond btnComps = true ∧
    componentNodes (fun _ => true) buildOkW btnComps =
      [SceneNode.componentSet btnComps] := by
  have h := claim3_variant_heuristic (fun _ => true) buildOkW btnComps
  have hv : variantCond btnComps = true := by decide
  refine ⟨hv, ?_⟩
  simpa using h.2.1 hv

/-- C4: when the variant path is attempted and the variant-set builder
throws, every component is built by the independent path and the
components section is still produced. -/
theorem claim4_variant_failure_fallback (setOk : List ComponentData → Bool)
    (buildOk : Nat → ComponentData → Bool) (st : FigmaState)
    (d : ImageAnalysisResult) (h1 : variantCond d.components = true)
    (h2 : setOk d.components = false) :
    ∃ pre, ((processImageAnalysisResults setOk buildOk st d).2).children =
      pre ++ [SceneNode.frame "Components"
        (titleNode "UI Components" :: buildIndependents buildOk 0 d.components)] := by
  have hne : d.components ≠ [] := by
    intro hnil
    rw [hnil] at h1
    exact absurd h1 (by decide)
  have hsec := components_section_children setOk buildOk st d hne
  simpa [componentNodes, h1, h2] using hsec

/-- A concrete two-variant batch (two components named `Btn`). -/
def btnPairInput : ImageAnalysisResult :=
  { components :=
      [{ id := "1", type := "RECTANGLE", name := "Btn", x := 0, y := 0,
         width := 10, height := 10, fills := none },
       { id := "2", type := "RECTANGLE", name := "Btn", x := 0, y := 0,
         width := 10, height := 10, fills := none }],
    colors := [], typography := [] }

/-- C4 witness: a concrete two-variant batch whose variant-set builder
fails still yields a components section with the two independent nodes. -/
theorem claim4_witness :
    ∃ pre, ((processImageAnalysisResults (fun _ => false) buildOkW stEmpty
        btnPairInput).2).children =
      pre ++ [SceneNode.frame "Components"
        (titleNode "UI Components" ::
          buildIndependents buildOkW 0 btnPairInput.components)] :=
  claim4_variant_failure_fallback (fun _ => false) buildOkW stEmpty
    btnPairInput (by decide) rfl

/-! ## Style registry lemmas (lookup-or-create) -/

theorem lookupOrCreate_extend (st : FigmaState) (n : String) (p : StylePayload) :
    ∃ l, (lookupOrCreate st n p).1.styles = st.styles ++ l := by
  unfold lookupOrCreate
  cases h : st.styles.find? (fun s => s.name == n) with
  | some s => exact ⟨[], by simp⟩
  | none => exact ⟨_, rfl⟩

theorem lookupOrCreate_found (st : FigmaState) (n : String) (p : StylePayload) :
    ∃ s : FigmaStyle,
      (lookupOrCreate st n p).1.styles.find? (fun t => t.name == n) = some s ∧
      s.id = (lookupOrCreate st n p).2 ∧
      (st.styles.find? (fun t => t.name == n) = none →
        s.payload = p ∧ s.id = st.nextId) ∧
      (∀ s0, st.styles.find? (fun t => t.name == n) = some s0 → s = s0) := by
  unfold lookupOrCreate
  cases h : st.styles.find? (fun t => t.name == n) with
  | some s =>
      refine ⟨s, h, rfl, fun hc => Option.noConfusion hc, ?_⟩
      intro s0 h0
      injection h0
  | none =>
      refine ⟨{ id := st.nextId, name := n, payload := p }, ?_, rfl,
        fun _ => ⟨rfl, rfl⟩, fun s0 h0 => Option.noConfusion h0⟩
      rw [find?_append_of_none _ h]
      simp [List.find?]

theorem lookupOrCreate_other (st : FigmaState) (n : String) (p : StylePayload)
    (m : String) (hm : m ≠ n) :
    (lookupOrCreate st n p).1.styles.find? (fun t => t.name == m) =
      st.styles.find? (fun t => t.name == m) := by
  unfold lookupOrCreate
  cases h : st.styles.find? (fun t => t.name == n) with
  | some s => rfl
  | none =>
      show (st.styles ++ _).find? _ = _
      rw [List.find?_append]
      have hone : ([({ id := st.nextId, name := n, payload := p } : FigmaStyle)].find?
          (fun t => t.name == m)) = none := by
        rw [List.find?_cons_of_neg]
        · rfl
        · simp only [beq_iff_eq]
          exact fun hc => hm hc.symm
      rw [hone, Option.or_none]

theorem lookupOrCreate_nodup (st : FigmaState) (n : String) (p : StylePayload)
    (h : (st.styles.map FigmaStyle.name).Nodup) :
    ((lookupOrCreate st n p).1.styles.map FigmaStyle.name).Nodup := by
  unfold lookupOrCreate
  cases hf : st.styles.find? (fun t => t.name == n) with
  | some s => exact h
  | none =>
      show ((st.styles ++ _).map FigmaStyle.name).Nodup
      rw [List.map_append]
      rw [List.nodup_append]
      refine ⟨h, by simp, ?_⟩
      intro a ha hb
      simp only [List.map_cons, List.map_nil, List.mem_singleton] at hb
      subst hb
      obtain ⟨s, hs, hname⟩ := List.mem_map.mp ha
      have := List.find?_eq_none.mp hf s hs
      simp only [beq_iff_eq] at this
      exact this hname

/-! ## Color-loop lemmas -/

theorem processColors_cons (st : FigmaState) (c : ColorData)
    (rest : List ColorData) :
    processColors st (c :: rest) =
      ((processColors (processColor st c).1 rest).1,
       (processColor st c).2 :: (processColors (processColor st c).1 rest).2) := rfl

theorem processColors_extend (cs : List ColorData) (st : FigmaState) :
    ∃ l, (processColors st cs).1.styles = st.styles ++ l := by
  induction cs generalizing st with
  | nil => exact ⟨[], by simp [processColors]⟩
  | cons c rest ih =>
      obtain ⟨l2, h2⟩ := ih (processColor st c).1
      obtain ⟨l1, h1⟩ := lookupOrCreate_extend st ("Color/" ++ c.name)
        (StylePayload.paint [mkPaint c])
      refine ⟨l1 ++ l2, ?_⟩
      rw [processColors_cons]
      show (processColors (processColor st c).1 rest).1.styles = _
      rw [h2]
      show (lookupOrCreate st ("Color/" ++ c.name)
        (StylePayload.paint [mkPaint c])).1.styles ++ l2 = _
      rw [h1, List.append_assoc]

theorem processColors_spec (cs : List ColorData) (st : FigmaState)
    (i : Nat) (c : ColorData) (hc : cs.get? i = some c) :
    ∃ s : FigmaStyle,
      (processColors st cs).1.styles.find?
        (fun t => t.name == "Color/" ++ c.name) = some s ∧
      (processColors st cs).2.get? i =
        some (colorWrapper c (mkPaint c) s.id) := by
  induction cs generalizing st i with
  | nil => exact absurd hc (by simp)
  | cons c0 rest ih =>
      cases i with
      | zero =>
          have hcc : c = c0 := by
            have : c0 = c := by simpa using hc
            exact this.symm
          subst hcc
          obtain ⟨s, hfind, hid, _, _⟩ := lookupOrCreate_found st
            ("Color/" ++ c.name) (StylePayload.paint [mkPaint c])
          obtain ⟨l, hext⟩ := processColors_extend rest
            (processColor st c).1
          have hpc1 : (processColor st c).1.styles =
              (lookupOrCreate st ("Color/" ++ c.name)
                (StylePayload.paint [mkPaint c])).1.styles := rfl
          refine ⟨s, ?_, ?_⟩
          · rw [processColors_cons]
            show ((processColors (processColor st c).1 rest).1.styles.find? _) = _
            rw [hext, hpc1]
            exact find?_append_of_some l hfind
          · rw [processColors_cons]
            simp only [List.get?_cons_zero]
            rw [show (processColor st c).2 =
              colorWrapper c (mkPaint c) (lookupOrCreate st ("Color/" ++ c.name)
                (StylePayload.paint [mkPaint c])).2 from rfl, ← hid]
      | succ j =>
          have hc' : rest.get? j = some c := by simpa using hc
          obtain ⟨s, hfind, hget⟩ := ih (processColor st c0).1 j hc'
          refine ⟨s, ?_, ?_⟩
          · rw [processColors_cons]
            exact hfind
          · rw [processColors_cons]
            simpa using hget

theorem processColors_nodup (cs : List ColorData) (st : FigmaState)
    (h : (st.styles.map FigmaStyle.name).Nodup) :
    ((processColors st cs).1.styles.map FigmaStyle.name).Nodup := by
  induction cs generalizing st with
  | nil => exact h
  | cons c rest ih =>
      rw [processColors_cons]
      exact ih (processColor st c).1
        (lookupOrCreate_nodup st ("Color/" ++ c.name)
          (StylePayload.paint [mkPaint c]) h)

theorem processColors_first_style (cs : List ColorData) (st : FigmaState)
    (n : String) (h0 : st.styles.find? (fun t => t.name == n) = none)
    (s : FigmaStyle)
    (hs : (processColors st cs).1.styles.find? (fun t => t.name == n) = some s) :
    ∃ c0, cs.find? (fun c => ("Color/" ++ c.name) == n) = some c0 ∧
      s.payload = StylePayload.paint [mkPaint c0] := by
  induction cs generalizing st with
  | nil =>
      rw [show processColors st [] = (st, []) from rfl] at hs
      rw [h0] at hs
      exact Option.noConfusion hs
  | cons c rest ih =>
      by_cases hkey : ("Color/" ++ c.name) = n
      · subst hkey
        obtain ⟨s1, hfind, _, hnew, _⟩ := lookupOrCreate_found st
          ("Color/" ++ c.name) (StylePayload.paint [mkPaint c])
        obtain ⟨hpay, _⟩ := hnew h0
        obtain ⟨l, hext⟩ := processColors_extend rest (processColor st c).1
        have hpc1 : (processColor st c).1.styles =
            (lookupOrCreate st ("Color/" ++ c.name)
              (StylePayload.paint [mkPaint c])).1.styles := rfl
        have hfin : (processColors st (c :: rest)).1.styles.find?
            (fun t => t.name == "Color/" ++ c.name) = some s1 := by
          rw [processColors_cons]
          show ((processColors (processColor st c).1 rest).1.styles.find? _) = _
          rw [hext, hpc1]
          exact find?_append_of_some l hfind
        have hss : s = s1 := by
          rw [hfin] at hs
          exact (Option.some.injEq _ _ ▸ hs.symm)
        refine ⟨c, ?_, ?_⟩
        · rw [List.find?_cons_of_pos]
          simp
        · rw [hss, hpay]
      · have hstep : ((processColor st c).1.styles.find?
            (fun t => t.name == n)) = none := by
          have hoth := lookupOrCreate_other st ("Color/" ++ c.name)
            (StylePayload.paint [mkPaint c]) n (fun hx => hkey hx.symm)
          have hpc1 : (processColor st c).1.styles =
              (lookupOrCreate st ("Color/" ++ c.name)
                (StylePayload.paint [mkPaint c])).1.styles := rfl
          rw [hpc1, hoth, h0]
        have hs' : ((processColors (processColor st c).1 rest).1.styles.find?
            (fun t => t.name == n)) = some s := by
          rw [processColors_cons] at hs
          exact hs
        obtain ⟨c0, hfind, hpay⟩ := ih (processColor st c).1 hstep hs'
        refine ⟨c0, ?_, hpay⟩
        rw [List.find?_cons_of_neg]
        · exact hfind
        · simpa using hkey

/-- C5: colors are deduplicated by style name: given a registry with
distinct style names, the final registry still has distinct names (at most
one paint style per color name per run); any two colors with the same
name are linked to the same style id even when their rgb values differ;
and a style that did not pre-exist carries exactly the paint of the first
color bearing its name (the later rgb value goes unused). -/
theorem claim5_paint_style_dedup (st : FigmaState) (cs : List ColorData)
    (h : (st.styles.map FigmaStyle.name).Nodup) :
    ((processColors st cs).1.styles.map FigmaStyle.name).Nodup ∧
    (∀ i j ci cj, cs.get? i = some ci → cs.get? j = some cj →
      ci.name = cj.name →
      ∃ sid, (processColors st cs).2.get? i =
          some (colorWrapper ci (mkPaint ci) sid) ∧
        (processColors st cs).2.get? j =
          some (colorWrapper cj (mkPaint cj) sid)) ∧
    (∀ n s, st.styles.find? (fun t => t.name == n) = none →
      (processColors st cs).1.styles.find? (fun t => t.name == n) = some s →
      ∃ c0, cs.find? (fun c => ("Color/" ++ c.name) == n) = some c0 ∧
        s.payload = StylePayload.paint [mkPaint c0]) := by
  refine ⟨processColors_nodup cs st h, ?_, ?_⟩
  · intro i j ci cj hi hj hnames
    obtain ⟨si, hfi, hgi⟩ := processColors_spec cs st i ci hi
    obtain ⟨sj, hfj, hgj⟩ := processColors_spec cs st j cj hj
    have : si = sj := by
      rw [hnames] at hfi
      rw [hfi] at hfj
      exact (Option.some.injEq _ _ ▸ hfj.symm).symm
    exact ⟨si.id, hgi, by rw [this]; exact hgj⟩
  · intro n s h0 hs
    exact processColors_first_style cs st n h0 s hs

/-- Two colors sharing the name `Primary` with different rgb values. -/
def cRed : ColorData := { name := "Primary", color := ⟨255, 0, 0⟩, opacity := none }

/-- The second `Primary` color, blue instead of red. -/
def cBlue : ColorData := { name := "Primary", color := ⟨0, 0, 255⟩, opacity := none }

/-- C5 witness: with an empty registry and two same-named colors, both
swatches are linked to one shared style id, and the style carries the
paint of the first color (the blue value going unused). -/
theorem claim5_witness :
    (∃ sid, (processColors stEmpty [cRed, cBlue]).2.get? 0 =
        some (colorWrapper cRed (mkPaint cRed) sid) ∧
      (processColors stEmpty [cRed, cBlue]).2.get? 1 =
        some (colorWrapper cBlue (mkPaint cBlue) sid)) ∧
    (∃ c0, [cRed, cBlue].find?
        (fun c => ("Color/" ++ c.name) == "Color/Primary") = some c0 ∧
      (StylePayload.paint [{ color := ⟨255, 0, 0⟩, opacity := 1 }]) =
        StylePayload.paint [mkPaint c0]) := by
  have h := claim5_paint_style_dedup stEmpty [cRed, cBlue] (by simp [stEmpty])
  refine ⟨h.2.1 0 1 cRed cBlue rfl rfl rfl, ?_⟩
  obtain ⟨c0, hfind, hpay⟩ := h.2.2 "Color/Primary"
    { id := 0, name := "Color/Primary",
      payload := StylePayload.paint [{ color := ⟨255, 0, 0⟩, opacity := 1 }] }
    rfl (by decide)
  exact ⟨c0, hfind, hpay⟩

/-! ## Typography-loop lemmas -/

theorem processGroups_cons (st : FigmaState) (g : List TypographyData)
    (gs : List (List TypographyData)) :
    processGroups st (g :: gs) =
      ((processGroups (processGroup st g).1 gs).1,
       (processGroup st g).2 ++ (processGroups (processGroup st g).1 gs).2) := rfl

theorem processGroup_extend (st : FigmaState) (g : List TypographyData) :
    ∃ l, (processGroup st g).1.styles = st.styles ++ l := by
  cases g with
  | nil => exact ⟨[], by simp [processGroup]⟩
  | cons sample r =>
      exact lookupOrCreate_extend st
        (textStyleName (sampleFontName sample) (sampleFontSize sample))
        (StylePayload.text (sampleFontName sample) (sampleFontSize sample))

theorem processGroups_extend (gs : List (List TypographyData)) (st : FigmaState) :
    ∃ l, (processGroups st gs).1.styles = st.styles ++ l := by
  induction gs generalizing st with
  | nil => exact ⟨[], by simp [processGroups]⟩
  | cons g gs ih =>
      obtain ⟨l2, h2⟩ := ih (processGroup st g).1
      obtain ⟨l1, h1⟩ := processGroup_extend st g
      refine ⟨l1 ++ l2, ?_⟩
      rw [processGroups_cons]
      show (processGroups (processGroup st g).1 gs).1.styles = _
      rw [h2, h1, List.append_assoc]

theorem processGroup_nodup (st : FigmaState) (g : List TypographyData)
    (h : (st.styles.map FigmaStyle.name).Nodup) :
    ((processGroup st g).1.styles.map FigmaStyle.name).Nodup := by
  cases g with
  | nil => exact h
  | cons sample r =>
      exact lookupOrCreate_nodup st
        (textStyleName (sampleFontName sample) (sampleFontSize sample))
        (StylePayload.text (sampleFontName sample) (sampleFontSize sample)) h

theorem processGroups_nodup (gs : List (List TypographyData)) (st : FigmaState)
    (h : (st.styles.map FigmaStyle.name).Nodup) :
    ((processGroups st gs).1.styles.map FigmaStyle.name).Nodup := by
  induction gs generalizing st with
  | nil => exact h
  | cons g gs ih =>
      rw [processGroups_cons]
      exact ih (processGroup st g).1 (processGroup_nodup st g h)

theorem processGroups_length (gs : List (List TypographyData)) (st : FigmaState)
    (hne : ∀ g ∈ gs, g ≠ []) :
    (processGroups st gs).2.length = gs.length := by
  induction gs generalizing st with
  | nil => rfl
  | cons g gs ih =>
      obtain ⟨sample, r, rfl⟩ : ∃ sample r, g = sample :: r := by
        cases g with
        | nil => exact absurd rfl (hne [] (List.mem_cons_self _ _))
        | cons sample r => exact ⟨sample, r, rfl⟩
      rw [processGroups_cons]
      simp only [List.length_append]
      rw [ih (processGroup st (sample :: r)).1
        (fun g0 hg0 => hne g0 (List.mem_cons_of_mem _ hg0))]
      show 1 + gs.length = gs.length + 1
      omega

theorem processGroups_spec (gs : List (List TypographyData)) (st : FigmaState)
    (hne : ∀ g ∈ gs, g ≠ []) (i : Nat) (g : List TypographyData)
    (hg : gs.get? i = some g) :
    ∃ sample rest s,
      g = sample :: rest ∧
      (processGroups st gs).2.get? i =
        some (SceneNode.text (some (sampleFontName sample)) (sampleFontSize sample)
          (sampleChars sample) (some s.id)) ∧
      (processGroups st gs).1.styles.find?
        (fun t => t.name ==
          textStyleName (sampleFontName sample) (sampleFontSize sample)) = some s ∧
      (∀ s0, st.styles.find?
          (fun t => t.name ==
            textStyleName (sampleFontName sample) (sampleFontSize sample)) = some s0 →
        s = s0) := by
  induction gs generalizing st i with
  | nil => exact absurd hg (by simp)
  | cons g0 gs ih =>
      obtain ⟨sample0, r0, rfl⟩ : ∃ sample r, g0 = sample :: r := by
        cases g0 with
        | nil => exact absurd rfl (hne [] (List.mem_cons_self _ _))
        | cons sample r => exact ⟨sample, r, rfl⟩
      cases i with
      | zero =>
          have hgg : g = sample0 :: r0 := by simpa using hg.symm
          subst hgg
          obtain ⟨s, hfind, hid, _, hreuse⟩ := lookupOrCreate_found st
            (textStyleName (sampleFontName sample0) (sampleFontSize sample0))
            (StylePayload.text (sampleFontName sample0) (sampleFontSize sample0))
          obtain ⟨l, hext⟩ := processGroups_extend gs
            (processGroup st (sample0 :: r0)).1
          have hpg1 : (processGroup st (sample0 :: r0)).1.styles =
              (lookupOrCreate st
                (textStyleName (sampleFontName sample0) (sampleFontSize sample0))
                (StylePayload.text (sampleFontName sample0)
                  (sampleFontSize sample0))).1.styles := rfl
          refine ⟨sample0, r0, s, rfl, ?_, ?_, hreuse⟩
          · rw [processGroups_cons]
            show (((processGroup st (sample0 :: r0)).2 ++ _).get? 0) = _
            rw [show (processGroup st (sample0 :: r0)).2 =
              [SceneNode.text (some (sampleFontName sample0))
                (sampleFontSize sample0) (sampleChars sample0)
                (some (lookupOrCreate st
                  (textStyleName (sampleFontName sample0) (sampleFontSize sample0))
                  (StylePayload.text (sampleFontName sample0)
                    (sampleFontSize sample0))).2)] from rfl]
            rw [← hid]
            rfl
          · rw [processGroups_cons]
            show ((processGroups (processGroup st (sample0 :: r0)).1 gs).1.styles.find? _) = _
            rw [hext, hpg1]
            exact find?_append_of_some l hfind
      | succ j =>
          have hg' : gs.get? j = some g := by simpa using hg
          obtain ⟨sample, rest, s, hgeq, hget, hfind, hreuse⟩ :=
            ih (processGroup st (sample0 :: r0)).1
              (fun g0 hg0 => hne g0 (List.mem_cons_of_mem _ hg0)) j hg'
          refine ⟨sample, rest, s, hgeq, ?_, ?_, ?_⟩
          · rw [processGroups_cons]
            show (((processGroup st (sample0 :: r0)).2 ++ _).get? (j + 1)) = _
            rw [show (processGroup st (sample0 :: r0)).2 =
              [SceneNode.text (some (sampleFontName sample0))
                (sampleFontSize sample0) (sampleChars sample0)
                (some (lookupOrCreate st
                  (textStyleName (sampleFontName sample0) (sampleFontSize sample0))
                  (StylePayload.text (sampleFontName sample0)
                    (sampleFontSize sample0))).2)] from rfl]
            simpa using hget
          · rw [processGroups_cons]
            exact hfind
          · intro s0 hs0
            obtain ⟨l1, hext1⟩ := processGroup_extend st (sample0 :: r0)
            refine hreuse s0 ?_
            rw [hext1]
            exact find?_append_of_some l1 hs0

theorem firstOccAux_subset (l : List String) (seen : List String) :
    ∀ k ∈ firstOccAux seen l, k ∈ l := by
  induction l generalizing seen with
  | nil => simp [firstOccAux]
  | cons a l ih =>
      intro k hk
      simp only [firstOccAux] at hk
      by_cases ha : a ∈ seen
      · rw [if_pos ha] at hk
        exact List.mem_cons_of_mem a (ih seen k hk)
      · rw [if_neg ha] at hk
        rcases List.mem_cons.mp hk with hk | hk
        · exact hk ▸ List.mem_cons_self a l
        · exact List.mem_cons_of_mem a (ih (a :: seen) k hk)

theorem typoGroups_mem_ne_nil (ts : List TypographyData) :
    ∀ g ∈ typoGroups ts, g ≠ [] := by
  intro g hg
  obtain ⟨k, hk, rfl⟩ := List.mem_map.mp hg
  have hkl : k ∈ ts.map typoKey := firstOccAux_subset _ [] k hk
  obtain ⟨t, ht, rfl⟩ := List.mem_map.mp hkl
  intro hnil
  have hmem : t ∈ ts.filter (fun u => typoKey u == typoKey t) :=
    List.mem_filter.mpr ⟨ht, by simp⟩
  rw [hnil] at hmem
  exact List.not_mem_nil t hmem

/-- C8 (amended): typography entries are grouped by the string key
`<fontSize or unknown>-<family or unknown>` of ui.tsx:1028 (a zero or
missing fontSize, and an empty or missing family, collapse to `unknown`;
this agrees with grouping by the literal (fontSize, fontFamily) pair
whenever every fontSize is nonzero and present and every family nonempty
and present); for each group exactly one sample text node is appended,
bound to the text style named `Text/<family>-<style>/<size>px` derived
from the first element of the group, and an existing style with that name is
reused instead of creating a new one. -/
theorem claim8_typography_grouping_amended (st : FigmaState)
    (ts : List TypographyData)
    (h : (st.styles.map FigmaStyle.name).Nodup) :
    ((processTypographyAll st ts).1.styles.map FigmaStyle.name).Nodup ∧
    (processTypographyAll st ts).2.length = (typoGroups ts).length ∧
    (∀ i g, (typoGroups ts).get? i = some g →
      ∃ sample rest s,
        g = sample :: rest ∧
        (processTypographyAll st ts).2.get? i =
          some (SceneNode.text (some (sampleFontName sample))
            (sampleFontSize sample) (sampleChars sample) (some s.id)) ∧
        (processTypographyAll st ts).1.styles.find?
          (fun t => t.name ==
            textStyleName (sampleFontName sample) (sampleFontSize sample)) =
          some s ∧
        (∀ s0, st.styles.find?
            (fun t => t.name ==
              textStyleName (sampleFontName sample) (sampleFontSize sample)) =
            some s0 → s = s0)) := by
  refine ⟨processGroups_nodup (typoGroups ts) st h,
    processGroups_length (typoGroups ts) st (typoGroups_mem_ne_nil ts),
    fun i g hg =>
      processGroups_spec (typoGroups ts) st (typoGroups_mem_ne_nil ts) i g hg⟩

/-- A typography entry with fontSize literally 0. -/
def tSizeZero : TypographyData :=
  { text := "a", fontName := some { family := "Arial", style := "Regular" },
    fontSize := some 0, x := 0, y := 0, width := 0, height := 0 }

/-- A typography entry with no fontSize at all. -/
def tSizeNone : TypographyData :=
  { text := "b", fontName := some { family := "Arial", style := "Regular" },
    fontSize := none, x := 0, y := 0, width := 0, height := 0 }

/-- C8 counterexample: two entries whose (fontSize, fontFamily) pairs
differ (fontSize 0 versus missing) fall into ONE code group and produce
ONE sample text node, not one per distinct pair as the claim states:
JavaScript `||` collapses both keys to `unknown-Arial`. -/
theorem claim8_counterexample :
    specPairKey tSizeZero ≠ specPairKey tSizeNone ∧
    ((List.map specPairKey [tSizeZero, tSizeNone]).dedup).length = 2 ∧
    (typoGroups [tSizeZero, tSizeNone]).length = 1 ∧
    (processTypographyAll stEmpty [tSizeZero, tSizeNone]).2.length = 1 := by
  exact ⟨by decide, by decide, by decide, by decide⟩

/-- Two entries sharing the key 12-Arial. -/
def tHello : TypographyData :=
  { text := "Hello", fontName := some { family := "Arial", style := "Regular" },
    fontSize := some 12, x := 0, y := 0, width := 0, height := 0 }

/-- The second 12-Arial entry. -/
def tWorld : TypographyData :=
  { text := "World", fontName := some { family := "Arial", style := "Bold" },
    fontSize := some 12, x := 0, y := 0, width := 0, height := 0 }

/-- C8 witness: on two concrete entries with the same key, exactly one
sample node is produced for the single group. -/
theorem claim8_witness :
    (processTypographyAll stEmpty [tHello, tWorld]).2.length =
      (typoGroups [tHello, tWorld]).length ∧
    (typoGroups [tHello, tWorld]).length = 1 := by
  have h := claim8_typography_grouping_amended stEmpty [tHello, tWorld]
    (by simp [stEmpty])
  exact ⟨h.2.1, by decide⟩

/-! ## Claims about the UI ingestion paths -/

/-- C6: a clipboard payload missing `version` or `imageAnalysis`, or with
none of colors/typography/components present (including unparseable text,
for which the parse oracle is `none`), and a `.json` file payload missing
`version` or `imageAnalysis`, set a non-empty user-visible error and keep
`importedJsonData` and `importMethod` at their previous values. -/
theorem claim6_invalid_payload_rejected :
    (∀ (text : String) (parsed : Option Json) (st : UIState),
      (∀ j, parsed = some j →
        jsTruthyProp j "version" = false ∨
        jsTruthyProp j "imageAnalysis" = false ∨
        (jsTruthyProp (jsPropD j "imageAnalysis") "colors" = false ∧
         jsTruthyProp (jsPropD j "imageAnalysis") "typography" = false ∧
         jsTruthyProp (jsPropD j "imageAnalysis") "components" = false)) →
      (∃ m, (processClipboardText text parsed st).error = some m ∧ m ≠ "") ∧
      (processClipboardText text parsed st).importedJsonData =
        st.importedJsonData ∧
      (processClipboardText text parsed st).importMethod = st.importMethod) ∧
    (∀ (st : UIState) (j : Json),
      (jsTruthyProp j "version" = false ∨
        jsTruthyProp j "imageAnalysis" = false) →
      (∃ m, (handleJsonFileImport (Except.ok j) st).error = some m ∧ m ≠ "") ∧
      (handleJsonFileImport (Except.ok j) st).importedJsonData =
        st.importedJsonData ∧
      (handleJsonFileImport (Except.ok j) st).importMethod = st.importMethod) := by
  constructor
  · intro text parsed st hinv
    by_cases htr : text.trim = ""
    · have heq : processClipboardText text parsed st =
          { st with error := some "No data found in clipboard" } := by
        simp [processClipboardText, htr]
      rw [heq]
      exact ⟨⟨_, rfl, by decide⟩, rfl, rfl⟩
    · cases parsed with
      | none =>
          have heq : processClipboardText text none st =
              { st with error := some "No valid component data found in clipboard" } := by
            simp [processClipboardText, htr]
          rw [heq]
          exact ⟨⟨_, rfl, by decide⟩, rfl, rfl⟩
      | some j =>
          have hcv : clipboardValid j = false := by
            rcases hinv j rfl with h | h | ⟨h1, h2, h3⟩
            · simp [clipboardValid, h]
            · simp [clipboardValid, h]
            · simp [clipboardValid, h1, h2, h3]
          have heq : processClipboardText text (some j) st =
              { st with error := some "The clipboard data is not in the expected format" } := by
            simp [processClipboardText, htr, hcv]
          rw [heq]
          exact ⟨⟨_, rfl, by decide⟩, rfl, rfl⟩
  · intro st j hinv
    have hjv : jsonFileValid j = false := by
      rcases hinv with h | h
      · simp [jsonFileValid, h]
      · simp [jsonFileValid, h]
    have heq : handleJsonFileImport (Except.ok j) st =
        { st with error := some "Invalid JSON format. Missing required data structure." } := by
      simp [handleJsonFileImport, hjv]
    rw [heq]
    exact ⟨⟨_, rfl, by decide⟩, rfl, rfl⟩

/-- A fresh UI panel state. -/
def stUI0 : UIState :=
  { error := none, statusMessage := "", importedJsonData := none,
    importMethod := ImportMethod.image, imagePreview := none,
    isProcessing := false, imageFile := none }

/-- C6 witness: the clipboard text `not json` (parse oracle `none`) sets
the `No valid component data` error and leaves both state fields alone. -/
theorem claim6_witness :
    (∃ m, (processClipboardText "not json" none stUI0).error = some m ∧
      m ≠ "") ∧
    (processClipboardText "not json" none stUI0).importedJsonData = none ∧
    (processClipboardText "not json" none stUI0).importMethod =
      ImportMethod.image := by
  have h := claim6_invalid_payload_rejected.1 "not json" none stUI0
    (fun j hj => Option.noConfusion hj)
  exact h

/-! ## Claims about the analyzeImage remap and enrichment -/

theorem remapColor_ok (c : Json) (h : c ≠ Json.null) :
    ∃ v, remapColor c = Except.ok v := by
  cases c with
  | null => exact absurd rfl h
  | bool b => exact ⟨_, rfl⟩
  | num n => exact ⟨_, rfl⟩
  | str s => exact ⟨_, rfl⟩
  | arr xs => exact ⟨_, rfl⟩
  | obj fs => exact ⟨_, rfl⟩

theorem remapTypo_ok (t : Json) (h : t ≠ Json.null) :
    ∃ v, remapTypo t = Except.ok v := by
  cases t with
  | null => exact absurd rfl h
  | bool b => exact ⟨_, rfl⟩
  | num n => exact ⟨_, rfl⟩
  | str s => exact ⟨_, rfl⟩
  | arr xs => exact ⟨_, rfl⟩
  | obj fs => exact ⟨_, rfl⟩

theorem remapComp_ok (genId : Nat → String) (i : Nat) (c : Json)
    (h : c ≠ Json.null) : ∃ v, remapComp genId i c = Except.ok v := by
  cases c with
  | null => exact absurd rfl h
  | bool b => exact ⟨_, rfl⟩
  | num n => exact ⟨_, rfl⟩
  | str s => exact ⟨_, rfl⟩
  | arr xs => exact ⟨_, rfl⟩
  | obj fs => exact ⟨_, rfl⟩

theorem exceptMapList_ok {β : Type} (f : Json → Except String β)
    (xs : List Json) (h : ∀ x ∈ xs, ∃ b, f x = Except.ok b) :
    ∃ bs, exceptMapList f xs = Except.ok bs := by
  induction xs with
  | nil => exact ⟨[], rfl⟩
  | cons x rest ih =>
      obtain ⟨b, hb⟩ := h x (List.mem_cons_self x rest)
      obtain ⟨bs, hbs⟩ := ih (fun y hy => h y (List.mem_cons_of_mem x hy))
      exact ⟨b :: bs, by simp [exceptMapList, hb, hbs]⟩

theorem exceptMapListIdx_ok {β : Type} (f : Nat → Json → Except String β)
    (xs : List Json) (h : ∀ k x, x ∈ xs → ∃ b, f k x = Except.ok b) :
    ∀ i, ∃ bs, exceptMapListIdx f i xs = Except.ok bs := by
  induction xs with
  | nil => exact fun i => ⟨[], rfl⟩
  | cons x rest ih =>
      intro i
      obtain ⟨b, hb⟩ := h i x (List.mem_cons_self x rest)
      obtain ⟨bs, hbs⟩ :=
        ih (fun k y hy => h k y (List.mem_cons_of_mem x hy)) (i + 1)
      exact ⟨b :: bs, by simp [exceptMapListIdx, hb, hbs]⟩

/-- C7 (amended): the remap of analyzeImage succeeds whenever
`imageAnalysis.colors`, `.typography` and `.components` are all arrays of
non-null elements; the clipboard validation alone (which only demands at
least one of the three) does not guarantee this. -/
theorem claim7_remap_ok_amended (genId : Nat → String) (j : Json)
    (ia : JsVal) (cs ts ks : List Json)
    (hia : jsAccessV (some j) "imageAnalysis" = Except.ok ia)
    (hc : jsAccessV ia "colors" = Except.ok (some (Json.arr cs)))
    (hcn : ∀ c ∈ cs, c ≠ Json.null)
    (ht : jsAccessV ia "typography" = Except.ok (some (Json.arr ts)))
    (htn : ∀ t ∈ ts, t ≠ Json.null)
    (hk : jsAccessV ia "components" = Except.ok (some (Json.arr ks)))
    (hkn : ∀ k ∈ ks, k ≠ Json.null) :
    exceptOk (remapAnalysis genId j) = true := by
  obtain ⟨bs1, h1⟩ := exceptMapList_ok remapColor cs
    (fun c hcm => remapColor_ok c (hcn c hcm))
  obtain ⟨bs2, h2⟩ := exceptMapList_ok remapTypo ts
    (fun t htm => remapTypo_ok t (htn t htm))
  obtain ⟨bs3, h3⟩ := exceptMapListIdx_ok (remapComp genId) ks
    (fun k x hx => remapComp_ok genId k x (hkn x hx)) 0
  simp [remapAnalysis, hia, hc, ht, hk, jsMapArr, jsMapArrIdx, h1, h2, h3,
    exceptOk, Bind.bind, Except.bind, Pure.pure, Except.pure]

/-- Payload with `version`, and `imageAnalysis` holding only `components`:
accepted by the clipboard validation, rejected by the remap. -/
def jOnlyComponents : Json :=
  Json.obj [("version", Json.str "1.0"),
    ("imageAnalysis", Json.obj [("components", Json.arr [])])]

/-- Deterministic stand-in for the random fallback component id. -/
def genId0 : Nat → String := fun i => "comp-" ++ toString i

/-- C7 counterexample: a payload carrying only `components` passes the
clipboard validation, yet the remap throws (`jsonData.colors` is
undefined, so `.map` is a TypeError), refuting the claim that validated
payloads always remap without throwing. -/
theorem claim7_counterexample :
    clipboardValid jOnlyComponents = true ∧
    exceptOk (remapAnalysis genId0 jOnlyComponents) = false := by
  exact ⟨by decide, by decide⟩

/-- Payload whose imageAnalysis carries all three arrays. -/
def jAllArrays : Json :=
  Json.obj [("version", Json.str "1.0"),
    ("imageAnalysis", Json.obj [("colors", Json.arr []),
      ("typography", Json.arr []), ("components", Json.arr [])])]

/-- C7 witness: with all three arrays present the remap returns normally. -/
theorem claim7_witness : exceptOk (remapAnalysis genId0 jAllArrays) = true :=
  claim7_remap_ok_amended genId0 jAllArrays
    (some (Json.obj [("colors", Json.arr []), ("typography", Json.arr []),
      ("components", Json.arr [])]))
    [] [] [] rfl rfl (by simp) rfl (by simp) rfl (by simp)

/-- C9: a throwing `findSimilarComponents` during the optional enrichment
step is caught: the run continues, `IMAGE_ANALYSIS_COMPLETE` is still
emitted, it carries the same analysis value as before the failed
enrichment attempt, and the whole outcome equals the one with a
succeeding enrichment. -/
theorem claim9_enrichment_failure_harmless
    (visionResult : Except String MAnalysis) (genId : Nat → String)
    (enrich : MAnalysis → Except String Unit) (st : UIState)
    (r : MAnalysis) (e : String)
    (hg1 : ¬(st.importMethod = ImportMethod.image ∧ st.imageFile = none))
    (hg2 : ¬(st.importMethod = ImportMethod.json ∧
      st.importedJsonData.isNone = true))
    (hres : (match st.importMethod with
      | ImportMethod.image => visionResult
      | ImportMethod.json =>
          remapAnalysis genId (st.importedJsonData.getD Json.null)) =
      Except.ok r)
    (herr : enrich r = Except.error e) :
    (analyzeImage visionResult genId enrich st).2 =
      [UIEvent.imageAnalysisComplete r] ∧
    analyzeImage visionResult genId enrich st =
      analyzeImage visionResult genId (fun _ => Except.ok ()) st := by
  simp only [analyzeImage, if_neg hg1, if_neg hg2, hres, herr]
  exact ⟨trivial, trivial⟩

/-- A panel state ready to build from the all-arrays JSON payload. -/
def stJsonReady : UIState :=
  { error := none, statusMessage := "", importedJsonData := some jAllArrays,
    importMethod := ImportMethod.json, imagePreview := none,
    isProcessing := false, imageFile := none }

/-- C9 witness: on the concrete JSON payload with a failing enrichment
oracle the completion event is still emitted with the remapped value. -/
theorem claim9_witness :
    (analyzeImage (Except.error "unused") genId0
      (fun _ => Except.error "network") stJsonReady).2 =
      [UIEvent.imageAnalysisComplete
        { colors := [], typography := [], components := [] }] := by
  have h := claim9_enrichment_failure_harmless (Except.error "unused") genId0
    (fun _ => Except.error "network") stJsonReady
    { colors := [], typography := [], components := [] } "network"
    (by simp [stJsonReady]) (by simp [stJsonReady]) rfl rfl
  exact h.1

/-! ## Claim about plugin teardown -/

/-- C10 counterexample: the `CLOSE_PLUGIN` handler tears the plugin down
synchronously, with no delayed teardown at all, while the analysis
handler schedules one; so teardown does not happen `after a fixed delay
in both cases`. -/
theorem claim10_counterexample :
    onClosePlugin = [MainAction.closePluginNow] ∧
    onClosePlugin.any MainAction.isDelayedTeardown = false ∧
    (onImageAnalysisComplete (Except.error "boom")).any
      MainAction.isDelayedTeardown = true := by
  exact ⟨rfl, rfl, rfl⟩

/-- C10 (amended): both paths tear the plugin down, but differently:
`CLOSE_PLUGIN` calls `figma.closePlugin()` immediately, while the
`IMAGE_ANALYSIS_COMPLETE` handler (on success and on a top-level error
alike) schedules teardown after the fixed 2000 ms delay. -/
theorem claim10_teardown_amended :
    (∃ a ∈ onClosePlugin, MainAction.isTeardown a = true ∧
      MainAction.isDelayedTeardown a = false) ∧
    (∀ outcome : Except String Unit,
      MainAction.scheduleClosePlugin 2000 ∈ onImageAnalysisComplete outcome) := by
  constructor
  · refine ⟨MainAction.closePluginNow, ?_, rfl, rfl⟩
    show MainAction.closePluginNow ∈ [MainAction.closePluginNow]
    exact List.mem_cons_self _ _
  · intro outcome
    cases outcome with
    | ok u => simp [onImageAnalysisComplete]
    | error e => simp [onImageAnalysisComplete]

/-- Analysis input with one color and the spec example components. -/
def dMixed : ImageAnalysisResult :=
  { components := btnComps, colors := [cRed], typography := [] }

/-- C1 witness: on a concrete input with colors and components but no
typography, the parent frame holds exactly the palette and components
sections in order, and a child of the parent starts with a bold title. -/
theorem claim1_witness :
    ((processImageAnalysisResults (fun _ => true) buildOkW stEmpty
        dMixed).2).children.map SceneNode.nodeName =
      [some "Color Palette", some "Components"] ∧
    ∃ c, c ∈ ((processImageAnalysisResults (fun _ => true) buildOkW stEmpty
        dMixed).2).children ∧ startsWithBoldTitle c = true := by
  have h := claim1_sections_order (fun _ => true) buildOkW stEmpty dMixed
  have h1 : ((processImageAnalysisResults (fun _ => true) buildOkW stEmpty
      dMixed).2).children.map SceneNode.nodeName =
      [some "Color Palette", some "Components"] := h.1
  refine ⟨h1, ?_⟩
  have hne : ((processImageAnalysisResults (fun _ => true) buildOkW stEmpty
      dMixed).2).children ≠ [] := by
    intro hnil
    rw [hnil] at h1
    exact List.noConfusion h1
  obtain ⟨c, rest, hcr⟩ := List.exists_cons_of_ne_nil hne
  have hmem : c ∈ ((processImageAnalysisResults (fun _ => true) buildOkW stEmpty
      dMixed).2).children := by
    rw [hcr]
    exact List.mem_cons_self c rest
  exact ⟨c, hmem, h.2 c hmem⟩

/-- C10 witness: a concrete failing analysis outcome still schedules the
2000 ms teardown. -/
theorem claim10_witness :
    MainAction.scheduleClosePlugin 2000 ∈
      onImageAnalysisComplete (Except.error "crash") :=
  claim10_teardown_amended.2 (Except.error "crash")
